import Mathlib

/-!
Verification of the PyQuadZ liquid-handler controller.

The Python sources (`serialqueue.py`, `quadz.py`, `gexceptions.py`) are
shallowly embedded below.  Bytes are natural numbers (a serial read yields
`Option ℕ`, `none` standing for the empty string an expired read timeout
returns), volumes are rationals, Python exceptions become an explicit
error type, and every device interaction is driven by an explicit
environment function describing what the instrument answers.  Loops whose
termination depends on the instrument are given a fuel parameter; running
out of fuel is reported as the distinguished `fuelOut` outcome, which is
a model artifact, not a program exception.
-/

namespace PyQuadZ

/-- Decidable equality for `Except`, so that concrete runs of the model
can be checked by `decide`. -/
instance {α β : Type} [DecidableEq α] [DecidableEq β] : DecidableEq (Except α β) := fun x y =>
  match x, y with
  | .ok a, .ok b =>
    if h : a = b then .isTrue (by rw [h]) else .isFalse (fun hc => absurd (Except.ok.inj hc) h)
  | .error a, .error b =>
    if h : a = b then .isTrue (by rw [h]) else .isFalse (fun hc => absurd (Except.error.inj hc) h)
  | .ok _, .error _ => .isFalse (fun hc => Except.noConfusion hc)
  | .error _, .ok _ => .isFalse (fun hc => Except.noConfusion hc)

/-- The exception taxonomy of `gexceptions.py`, plus Python's built-in
`IndexError` (reachable from `resp[0]` on an empty string) and the
`fuelOut` marker used by the model for loops bounded only by the
instrument's behaviour. -/
inductive GExn where
  | responseSizeError
  | bufferedResponseError
  | deviceNotRegistered (devId : ℕ)
  | deviceNotConnected (devId : ℕ)
  | deviceNotResponding (devId : ℕ)
  | moveInnacuracyDetected
  | volumeError
  | indexError
  | fuelOut
deriving DecidableEq, Repr

/-! ## `SerialQueue.send_immediate_instruction` (serialqueue.py 392-434)

The byte stream the device produces is `reads : ℕ → Option ℕ`: the k-th
call to `get_byte()` during this exchange returns `reads k` (`none` for
an empty read).  The loop body performs exactly one read per iteration
and increments `count` by one each time, so indexing reads by the current
value of `count` is exact. -/

/-- Outcome of one immediate exchange: a decoded response together with
the number of `get_byte()` calls performed, or `ResponseSizeError` after
`readsDone` reads, or fuel exhaustion (provably unreachable from the
public entry point, see `sendImmAux_ne_fuelOut`). -/
inductive ImmResult where
  | ok (resp : List ℕ) (readsDone : ℕ)
  | sizeErr (readsDone : ℕ)
  | fuelOut
deriving DecidableEq, Repr

/-- The receive loop of `send_immediate_instruction`.  `count` is the
iteration counter (also the number of reads performed so far),
`nullCount` counts the empty reads seen so far, `response` accumulates
the decoded characters.  Guards `count > 32` (`max_string_size`) and
`nullCount > 5` (`max_null_count`) are checked at the top of every
iteration, before the read.  A byte with its high bit set
(`(ord c >> 7) == 1`) has the bit cleared (`ord c - 128`), is appended,
and terminates the exchange. -/
def sendImmAux (reads : ℕ → Option ℕ) : ℕ → ℕ → ℕ → List ℕ → ImmResult
  | 0, _, _, _ => .fuelOut
  | fuel + 1, count, nullCount, response =>
    if 32 < count then .sizeErr count
    else if 5 < nullCount then .sizeErr count
    else
      match reads count with
      | some b =>
        if b >>> 7 = 1 then .ok (response ++ [b - 128]) (count + 1)
        else sendImmAux reads fuel (count + 1) nullCount (response ++ [b])
      | none => sendImmAux reads fuel (count + 1) (nullCount + 1) response

/-- Model of `send_immediate_instruction`: transmit the command (not modelled: the
write has no observable effect on the claims), then run the receive loop
from `count = 0`, `null_count = 0`, `response = ''`.  Fuel 40 exceeds the
34 iterations the guards allow, so `fuelOut` is unreachable. -/
def sendImmediateInstruction (reads : ℕ → Option ℕ) : ImmResult :=
  sendImmAux reads 40 0 0 []

/-- Number of empty reads among `reads a, reads (a+1), ..., reads (a+len-1)`. -/
def countEmpties (reads : ℕ → Option ℕ) : ℕ → ℕ → ℕ
  | _, 0 => 0
  | a, len + 1 => (if reads a = none then 1 else 0) + countEmpties reads (a + 1) len

/-- The non-empty bytes among `reads a, ..., reads (a+len-1)`, in order. -/
def bytesRead (reads : ℕ → Option ℕ) : ℕ → ℕ → List ℕ
  | _, 0 => []
  | a, len + 1 =>
    match reads a with
    | some b => b :: bytesRead reads (a + 1) len
    | none => bytesRead reads (a + 1) len

example : sendImmediateInstruction (fun k => if k < 2 then some 65 else some 200) =
    .ok [65, 65, 72] 3 := by decide

example : sendImmediateInstruction (fun k => if k % 2 = 0 then none else some 97) =
    .sizeErr 11 := by decide

/-! ## Connection handshake and device registry (serialqueue.py 203-303)

`connReads i` is the byte `get_byte()` returns during the i-th connect
attempt of the exchange under consideration (`none`: empty read).
`connect` writes the device byte `chr(device_id + 128)` and compares the
echoed byte against it; `disconnect` writes `chr(255)` and clears the
connected device.  Neither write is observable in the claims. -/

/-- The mutable fields of `SerialQueue` that the connection and
instruction machinery touches. -/
structure SState where
  registered : List ℕ
  connected : Option ℕ
  lastException : Option GExn
deriving DecidableEq, Repr

/-- Model of `SerialQueue.connect` (203-232): raise `DeviceNotRegistered` for an
unknown id, succeed at once when already connected, otherwise send the
device byte and require it to be echoed back, raising
`DeviceNotConnected` on any other answer. -/
def connect (connReads : ℕ → Option ℕ) (attempt : ℕ) (st : SState) (devId : ℕ) :
    Except (GExn × SState) SState :=
  if devId ∉ st.registered then .error (.deviceNotRegistered devId, st)
  else if st.connected = some devId then .ok st
  else if connReads attempt = some (devId + 128) then .ok { st with connected := some devId }
  else .error (.deviceNotConnected devId, st)

/-- The retry loop of `establish_connection` (296-303): up to
`max_retries` rounds of disconnect-then-connect, catching only
`DeviceNotConnected`; on exhaustion `DeviceNotResponding` is raised.
`i` is the index of the next attempt. -/
def establishLoop (connReads : ℕ → Option ℕ) (devId : ℕ) :
    ℕ → ℕ → SState → Except (GExn × SState) SState
  | 0, _, st => .error (.deviceNotResponding devId, st)
  | n + 1, i, st =>
    -- `self.disconnect()` sends 0xFF and sets connected_device = None
    let st1 := { st with connected := none }
    match connect connReads i st1 devId with
    | .ok st2 => .ok st2
    | .error (.deviceNotConnected _, st2) => establishLoop connReads devId n (i + 1) st2
    | .error e => .error e

/-- Model of `SerialQueue.establish_connection` (286-303) with the default
`max_retries = 10`: skip when already connected, else run the retry
loop. -/
def establishConnection (connReads : ℕ → Option ℕ) (st : SState) (devId : ℕ) :
    Except (GExn × SState) SState :=
  if st.connected = some devId then .ok st
  else establishLoop connReads devId 10 0 st

/-- Model of `SerialQueue.register_device` (271-284): append the id to
`registered_devices` unconditionally, then attempt the handshake;
`DeviceNotResponding` is caught and turned into `false`, success gives
`true`.  Any other exception would propagate to the caller (the
`.error` branch, unreachable because the id was just registered). -/
def registerDevice (connReads : ℕ → Option ℕ) (st : SState) (devId : ℕ) :
    Except (GExn × SState) (Bool × SState) :=
  let st1 := { st with registered := st.registered ++ [devId] }
  match establishConnection connReads st1 devId with
  | .ok st2 => .ok (true, st2)
  | .error (.deviceNotResponding _, st2) => .ok (false, st2)
  | .error e => .error e

/-! ## The worker's immediate-instruction service (serialqueue.py 110-139)

`run()` services a pending immediate instruction as follows: establish
the connection, catching `DeviceNotResponding` by storing `False` as the
response and recording the exception in `last_exception`; then run
`send_immediate_instruction`, catching every exception the same way; in
all three cases `event_immediate_response` is set, which unblocks the
caller sitting in `add_immediate_instruction`, who then returns whatever
is stored in `immediate_response`.  An exception not caught here (only
`DeviceNotRegistered` from `connect`) would kill the worker thread and
leave the caller blocked forever; the model surfaces it as `.error`. -/

/-- What `add_immediate_instruction` hands back to the submitting
caller: either the stored Python `False` sentinel or the decoded
response bytes. -/
inductive PyResp where
  | pyFalse
  | bytes (resp : List ℕ)
deriving DecidableEq, Repr

/-- Worker-side processing of one immediate instruction followed by the
caller's pickup of `immediate_response`: the composition of the
`run()` branch at lines 110-136 with `add_immediate_instruction`
(312-339).  `reads` feeds the response decoding. -/
def addImmediateInstruction (connReads reads : ℕ → Option ℕ) (st : SState) (devId : ℕ) :
    Except GExn (PyResp × SState) :=
  match establishConnection connReads st devId with
  | .error (.deviceNotResponding d, st1) =>
    .ok (.pyFalse, { st1 with lastException := some (.deviceNotResponding d) })
  | .error (e, _) => .error e
  | .ok st1 =>
    match sendImmediateInstruction reads with
    | .ok resp _ => .ok (.bytes resp, st1)
    | .sizeErr _ => .ok (.pyFalse, { st1 with lastException := some .responseSizeError })
    | .fuelOut => .ok (.pyFalse, { st1 with lastException := some .fuelOut })

example :
    addImmediateInstruction (fun _ => some 0) (fun _ => some 200)
      ⟨[5], none, none⟩ 5 =
    .ok (.pyFalse, ⟨[5], none, some (.deviceNotResponding 5)⟩) := by decide

example :
    addImmediateInstruction (fun _ => some 133) (fun _ => some 200)
      ⟨[5], none, none⟩ 5 =
    .ok (.bytes [72], ⟨[5], some 5, none⟩) := by decide

/-! ## The worker's buffered-instruction service (serialqueue.py 141-170, 364-390)

A queue entry is `(device_id, instruction, wait, parent)`; the `wait`
slot holds whatever value the producer passed: `add_buffered_instruction`
defaults it to the string `'handler'`, `QuadZDevice.buffered` passes the
Python boolean `True` for the controller and the string `'pump'` for a
syringe pump.  `run()` dispatches on it with `== 'handler'` / `== 'pump'`;
any other value (in particular `True`) selects no polling at all. -/

/-- The possible values of the `wait` slot of a queue entry. -/
inductive WaitTag where
  | pyTrue
  | handler
  | pump
deriving DecidableEq, Repr

/-- The instrument's behaviour during one buffered queue entry:
`connReads` feeds the connect attempts, `pollReads k` feeds the k-th
buffer-status `'S'` immediate exchange, `echoReads j` is the byte read
back after the j-th framed byte of the buffered transmission. -/
structure WEnv where
  connReads : ℕ → Option ℕ
  pollReads : ℕ → ℕ → Option ℕ
  echoReads : ℕ → Option ℕ

/-- The `'handler'` polling loop of `run()` (151-154): repeat the `'S'`
immediate exchange until the response is the literal `'|'` (byte 124).
Returns the number of polls performed. -/
def gatingHandler (env : WEnv) : ℕ → ℕ → Except GExn ℕ
  | 0, _ => .error .fuelOut
  | f + 1, k =>
    match sendImmediateInstruction (env.pollReads k) with
    | .ok resp _ => if resp = [124] then .ok (k + 1) else gatingHandler env f (k + 1)
    | .sizeErr _ => .error .responseSizeError
    | .fuelOut => .error .fuelOut

/-- The `'pump'` polling loop of `run()` (155-158): repeat the `'S'`
immediate exchange until the first character of the response is `'0'`
(byte 48); `resp[0]` on an empty response would be an `IndexError`
(unreachable: decoded responses always end in the terminator byte). -/
def gatingPump (env : WEnv) : ℕ → ℕ → Except GExn ℕ
  | 0, _ => .error .fuelOut
  | f + 1, k =>
    match sendImmediateInstruction (env.pollReads k) with
    | .ok [] _ => .error .indexError
    | .ok (c :: _) _ => if c = 48 then .ok (k + 1) else gatingPump env f (k + 1)
    | .sizeErr _ => .error .responseSizeError
    | .fuelOut => .error .fuelOut

/-- The buffer-ready gate of `run()` (149-158): dispatch on the `wait`
slot.  A value that is neither `'handler'` nor `'pump'` — which is what
`QuadZDevice.buffered` produces for the controller, namely `True` —
matches neither branch, so the payload is transmitted without any
buffer-status polling.  Returns the number of `'S'` polls performed. -/
def bufferGate (env : WEnv) (tag : WaitTag) (fuel : ℕ) : Except GExn ℕ :=
  match tag with
  | .handler => gatingHandler env fuel 0
  | .pump => gatingPump env fuel 0
  | .pyTrue => .ok 0

/-- The echo loop of `send_buffered_instruction` (378-386): `j` indexes
the framed bytes already echoed correctly; the first byte read back that
differs from the byte just sent aborts with `BufferedResponseError`. -/
def sendBufferedLoop (echoReads : ℕ → Option ℕ) : List ℕ → ℕ → Except GExn Unit
  | [], _ => .ok ()
  | c :: rest, j =>
    if echoReads j = some c then sendBufferedLoop echoReads rest (j + 1)
    else .error .bufferedResponseError

/-- Model of `SerialQueue.send_buffered_instruction` (364-390): frame the payload
as `LF + payload + CR` (bytes 10 and 13) and transmit it byte by byte
through the echo loop. -/
def sendBufferedInstruction (echoReads : ℕ → Option ℕ) (payload : List ℕ) :
    Except GExn Unit :=
  sendBufferedLoop echoReads (10 :: payload ++ [13]) 0

/-- Outcome of one pass of the worker loop over a buffered queue entry:
either the loop continues to the next entry (with the state as left
behind), or an uncaught exception propagates out of `run()` and the
worker thread terminates. -/
inductive StepOut where
  | continues (st : SState)
  | crashes (e : GExn) (st : SState)
deriving DecidableEq, Repr

/-- The buffered branch of `run()` (141-166) applied to one queue entry:
`try` establish the connection and poll the buffer gate, where `except`
catches only `DeviceNotResponding` (recording it and marking the entry
done); in the `else` — outside the protection of the `try` — transmit
the payload, so a `BufferedResponseError` (or any exception from the
gate other than `DeviceNotResponding`) is uncaught and kills the
worker. -/
def workerBufferedStep (env : WEnv) (st : SState) (devId : ℕ) (payload : List ℕ)
    (tag : WaitTag) (fuel : ℕ) : StepOut :=
  match establishConnection env.connReads st devId with
  | .error (.deviceNotResponding d, st1) =>
    .continues { st1 with lastException := some (.deviceNotResponding d) }
  | .error (e, st1) => .crashes e st1
  | .ok st1 =>
    match bufferGate env tag fuel with
    | .error (.deviceNotResponding d) =>
      .continues { st1 with lastException := some (.deviceNotResponding d) }
    | .error e => .crashes e st1
    | .ok _ =>
      match sendBufferedInstruction env.echoReads payload with
      | .ok _ => .continues st1
      | .error e => .crashes e st1

/-! ## `QuadZDevice` syringe-pump control (quadz.py 6-64, 107-122, 619-1011)

Volumes are rationals; Python's `x % 1` on a float is `Int.fract`, and
Python's `int()` truncates toward zero (`pyInt`).  The instrument is the
environment `env : ℕ → ℕ → Char × ℚ`: the k-th `'M'` status query of a
run yields, for each probe, the status letter and the volume that
`get_syringe_pump_status` would parse out of the response for that
probe's side of its pump.  Command payload strings are opaque per the
specification, so a buffered instruction is recorded structurally. -/

/-- Floor of a rational, written out computably (`Int` division of the
numerator by the denominator rounds toward negative infinity for the
positive denominator of a normalized `Rat`). -/
def pyFloor (q : ℚ) : ℤ := q.num / q.den

/-- Python's `x % 1` on a float: the fractional part `x - ⌊x⌋`, always
in `[0, 1)` (the result takes the sign of the divisor). -/
def pyMod1 (q : ℚ) : ℚ := q - pyFloor q

/-- Python's `int()` on a float/rational: truncation toward zero. -/
def pyInt (q : ℚ) : ℤ := if 0 ≤ q then pyFloor q else -pyFloor (-q)

/-- The `'left'` / `'right'` strings stored in `syringe[probe]['side']`. -/
inductive Side where
  | left
  | right
deriving DecidableEq, Repr

/-- One entry of the `self.syringe` dictionary (quadz.py 52-63). -/
structure Syringe where
  device_id : ℤ
  side : Option Side
  syringe_size : ℚ
  partner_probe : ℕ
  status : Char
  current_volume : ℚ
  valve_status : Char
  motor_force : ℤ
  flow_rate : ℚ
  next_operation : ℚ
deriving DecidableEq, Repr

/-- The defaults written by `QuadZDevice.__init__` (quadz.py 54-63). -/
def syringeDefault : Syringe :=
  { device_id := -1, side := none, syringe_size := 0, partner_probe := 0,
    status := 'I', current_volume := 0, valve_status := 'N', motor_force := 3,
    flow_rate := 10, next_operation := 0 }

/-- The `self.syringe` dictionary with its four probe keys. -/
structure SyrMap where
  s1 : Syringe
  s2 : Syringe
  s3 : Syringe
  s4 : Syringe
deriving DecidableEq, Repr

/-- Lookup of `self.syringe[probe]`.  Keys other than 1-4 would be a Python
`KeyError`; the model returns the probe-1 entry there, and no claim
exercises such a key. -/
def SyrMap.get (m : SyrMap) (probe : ℕ) : Syringe :=
  match probe with
  | 2 => m.s2
  | 3 => m.s3
  | 4 => m.s4
  | _ => m.s1

/-- Update `self.syringe[probe]`.  Keys other than 1-4 (a `KeyError` in
Python) leave the map unchanged; no claim exercises such a key. -/
def SyrMap.set (m : SyrMap) (probe : ℕ) (f : Syringe → Syringe) : SyrMap :=
  match probe with
  | 1 => { m with s1 := f m.s1 }
  | 2 => { m with s2 := f m.s2 }
  | 3 => { m with s3 := f m.s3 }
  | 4 => { m with s4 := f m.s4 }
  | _ => m

/-- A buffered instruction as `QuadZDevice` produces it: the per-probe
volume commands (`'A'`/`'D'` + side letter + `str(volume)` + optional
`'.0'` suffix), the synchronized start `'BB'`, and other ASCII payloads
kept as raw bytes. -/
inductive Payload where
  | aspirateVol (letter : Char) (vol : ℚ) (dotZero : Bool)
  | dispenseVol (letter : Char) (vol : ℚ) (dotZero : Bool)
  | beginBoth
  | raw (s : List ℕ)
deriving DecidableEq, Repr

/-- The controller-side state the pump claims touch: the status-query
counter driving `env`, the syringe dictionary, the buffered instructions
enqueued so far (device id, payload, wait tag, in order), the list of
registered syringe-pump device ids, and the liquid handler's own id. -/
structure QState where
  qIdx : ℕ
  syr : SyrMap
  cmds : List (ℤ × Payload × WaitTag)
  syringe_devices : List ℤ
  device_id : ℤ
deriving DecidableEq, Repr

/-- Model of `QuadZDevice.buffered` (107-122): resolve the `-1` default to the
liquid handler's id, start from `wait = True`, switch to `'pump'` only
when the target is a registered syringe pump, and enqueue the entry. -/
def quadzBuffered (st : QState) (payload : Payload) (device_id : ℤ) : QState :=
  let dev := if device_id = -1 then st.device_id else device_id
  let wait := if dev ∈ st.syringe_devices then WaitTag.pump else WaitTag.pyTrue
  { st with cmds := st.cmds ++ [(dev, payload, wait)] }

/-- Model of `QuadZDevice.add_402_syringe_pump` (619-643), minus the bus
registration and `'%'` version probe (immediate exchanges with no effect
on this state): wire both probes to the pump's device id and sides and
record the device id in `syringe_devices`. -/
def add402SyringePump (st : QState) (devId : ℤ) (leftP rightP : ℕ) : QState :=
  let syr1 := st.syr.set leftP fun t =>
    { t with device_id := devId, side := some .left, partner_probe := rightP }
  let syr2 := syr1.set rightP fun t =>
    { t with device_id := devId, side := some .right, partner_probe := leftP }
  { st with syr := syr2, syringe_devices := st.syringe_devices ++ [devId] }

/-- Model of `QuadZDevice.get_syringe_pump_status` (659-688): send `'M'`, parse
the response into a status letter and volume for each side, store them
in the cache for both this probe and its partner, and return this
probe's pair.  The left/right resolution mirrors lines 675-680. -/
def getSyringePumpStatus (env : ℕ → ℕ → Char × ℚ) (st : QState) (probe : ℕ) :
    (Char × ℚ) × QState :=
  let s := st.syr.get probe
  let pl := if s.side = some .right then s.partner_probe else probe
  let pr := if s.side = some .right then probe else s.partner_probe
  let k := st.qIdx
  let syr1 := st.syr.set pl fun t =>
    { t with status := (env k pl).1, current_volume := (env k pl).2 }
  let syr2 := syr1.set pr fun t =>
    { t with status := (env k pr).1, current_volume := (env k pr).2 }
  (env k probe, { st with qIdx := k + 1, syr := syr2 })

/-- The blocking loop at the end of both volume setters (753-754,
777-778): poll `get_syringe_pump_status` until the status letter is
`'H'`; each test performs one status query, including the passing
one. -/
def waitForH (env : ℕ → ℕ → Char × ℚ) (probe : ℕ) :
    ℕ → QState → Except (GExn × QState) QState
  | 0, st => .error (.fuelOut, st)
  | f + 1, st =>
    let ((c, _), st1) := getSyringePumpStatus env st probe
    if c ≠ 'H' then waitForH env probe f st1 else .ok st1

/-- Model of `QuadZDevice.set_aspirate_volume` (732-754): pick the side letter,
compute the `'.0'` suffix flag (`not volume % 1 > 0`), and — when the
fractional part of the requested volume differs from that of the
reported volume — enqueue the `'A'` command, record
`next_operation = -volume`, and block until the pump reports `'H'`.
When the fractional parts agree the function returns right after the
status query, enqueueing nothing and leaving `next_operation` alone. -/
def setAspirateVolume (env : ℕ → ℕ → Char × ℚ) (st : QState) (probe : ℕ) (volume : ℚ)
    (fuel : ℕ) : Except (GExn × QState) QState :=
  -- self.wait_for_buffered(): queue synchronisation, no effect sequentially
  let s := st.syr.get probe
  let letter := if s.side = some .right then 'R' else 'L'
  let dotZero := if 0 < pyMod1 volume then false else true
  let ((_, statVol), st1) := getSyringePumpStatus env st probe
  if pyMod1 volume = pyMod1 statVol then .ok st1
  else
    let st2 := quadzBuffered st1 (.aspirateVol letter volume dotZero) s.device_id
    let st3 := { st2 with syr := st2.syr.set probe fun t => { t with next_operation := -volume } }
    waitForH env probe fuel st3

/-- Model of `QuadZDevice.set_dispense_volume` (756-778): same shape as
`set_aspirate_volume` with the `'D'` command and
`next_operation = volume`. -/
def setDispenseVolume (env : ℕ → ℕ → Char × ℚ) (st : QState) (probe : ℕ) (volume : ℚ)
    (fuel : ℕ) : Except (GExn × QState) QState :=
  let s := st.syr.get probe
  let letter := if s.side = some .right then 'R' else 'L'
  let dotZero := if 0 < pyMod1 volume then false else true
  let ((_, statVol), st1) := getSyringePumpStatus env st probe
  if pyMod1 volume = pyMod1 statVol then .ok st1
  else
    let st2 := quadzBuffered st1 (.dispenseVol letter volume dotZero) s.device_id
    let st3 := { st2 with syr := st2.syr.set probe fun t => { t with next_operation := volume } }
    waitForH env probe fuel st3

/-- The per-probe check-and-set loop of `QuadZDevice.pump` (976-993):
for probe `i+1`, read the status; a positive entry is a dispense and
raises `VolumeError` when the reported volume is below it, a
non-positive entry takes the aspirate branch and raises `VolumeError`
when the reported volume exceeds its magnitude (`vol > -volumes[i]`);
otherwise the corresponding volume setter runs and the expected final
volume `vol - volumes[i]` is appended to `starting_vol`. -/
def pumpCheckLoop (env : ℕ → ℕ → Char × ℚ) (fuel : ℕ) :
    List ℚ → ℕ → QState → List ℚ → Except (GExn × QState) (QState × List ℚ)
  | [], _, st, acc => .ok (st, acc)
  | v :: rest, i, st, acc =>
    let ((_, vol), st1) := getSyringePumpStatus env st (i + 1)
    if 0 < v then
      if vol < v then .error (.volumeError, st1)
      else
        match setDispenseVolume env st1 (i + 1) v fuel with
        | .error e => .error e
        | .ok st2 => pumpCheckLoop env fuel rest (i + 1) st2 (acc ++ [vol - v])
    else
      if -v < vol then .error (.volumeError, st1)
      else
        match setAspirateVolume env st1 (i + 1) |v| fuel with
        | .error e => .error e
        | .ok st2 => pumpCheckLoop env fuel rest (i + 1) st2 (acc ++ [vol - v])

/-- The synchronized start of `pump` (995-996): one buffered `'BB'` to
every registered syringe-pump device. -/
def pumpStartAll (st : QState) : QState :=
  st.syringe_devices.foldl (fun s d => quadzBuffered s Payload.beginBoth d) st

/-- The per-probe verification loop of `pump` (999-1011): poll the
status; once the pump has been seen running (`'R'`) and stops, a
truncated-volume mismatch against the expected value raises
`VolumeError`; the loop exits when the truncated volume matches. -/
def pumpWaitLoop (env : ℕ → ℕ → Char × ℚ) (probe : ℕ) (target : ℚ) :
    ℕ → Bool → QState → Except (GExn × QState) QState
  | 0, _, st => .error (.fuelOut, st)
  | f + 1, running, st =>
    let ((c, vol), st1) := getSyringePumpStatus env st probe
    if c ≠ 'R' ∧ running = true then
      if pyInt vol ≠ pyInt target then .error (.volumeError, st1)
      else if pyInt vol = pyInt target then .ok st1
      else pumpWaitLoop env probe target f running st1
    else
      let running1 := if c = 'R' then true else running
      if pyInt vol = pyInt target then .ok st1
      else pumpWaitLoop env probe target f running1 st1

/-- The loop over probes around `pumpWaitLoop` (998). -/
def pumpWaitAll (env : ℕ → ℕ → Char × ℚ) (fuel : ℕ) :
    List ℚ → ℕ → QState → Except (GExn × QState) QState
  | [], _, st => .ok st
  | t :: rest, i, st =>
    match pumpWaitLoop env (i + 1) t fuel false st with
    | .error e => .error e
    | .ok st1 => pumpWaitAll env fuel rest (i + 1) st1

/-- Model of `QuadZDevice.pump` (968-1011): the check-and-set loop, then the
synchronized `'BB'` start, then per-probe verification. -/
def pump (env : ℕ → ℕ → Char × ℚ) (st : QState) (volumes : List ℚ) (fuel : ℕ) :
    Except (GExn × QState) QState :=
  match pumpCheckLoop env fuel volumes 0 st [] with
  | .error e => .error e
  | .ok (st1, starting) => pumpWaitAll env fuel starting 0 (pumpStartAll st1)

/-- The exception of a failed stateful run, if any. -/
def errOf (r : Except (GExn × QState) QState) : Option GExn :=
  match r with
  | .error (e, _) => some e
  | .ok _ => none

/-- The buffered instructions enqueued at the moment a stateful run
raised, if it raised. -/
def errCmds (r : Except (GExn × QState) QState) : Option (List (ℤ × Payload × WaitTag)) :=
  match r with
  | .error (_, st) => some st.cmds
  | .ok _ => none

/-- The controller state right after `__init__` (with handler id 22, the
id used throughout the repository's example script). -/
def qInit : QState :=
  { qIdx := 0, syr := ⟨syringeDefault, syringeDefault, syringeDefault, syringeDefault⟩,
    cmds := [], syringe_devices := [], device_id := 22 }

/-- The state `qInit` after `add_402_syringe_pump(0, 1, 2)`: probes 1 (left) and
2 (right) on pump device 0. -/
def qPump0 : QState := add402SyringePump qInit 0 1 2

/-- An instrument whose every status query answers `'H'` (halted) with
the same volume on every probe. -/
def envH (vol : ℚ) : ℕ → ℕ → Char × ℚ := fun _ _ => ('H', vol)

example : errOf (pump (envH 200) qPump0 [-150] 20) = some .volumeError := by decide

example : errCmds (pump (envH 200) qPump0 [-150] 20) = some [] := by decide

example : errOf (pump (envH 200) qPump0 [(100.5 : ℚ), 300] 20) = some .volumeError :=
  of_decide_eq_true (by with_unfolding_all rfl)

example : errCmds (pump (envH 200) qPump0 [(100.5 : ℚ), 300] 20) =
    some [(0, .dispenseVol 'L' (100.5 : ℚ) false, .pump)] :=
  of_decide_eq_true (by with_unfolding_all rfl)

example :
    pumpCheckLoop (envH 100) 20 [-250] 0 qPump0 [] =
    .ok ((getSyringePumpStatus (envH 100) (getSyringePumpStatus (envH 100) qPump0 1).2 1).2,
      [(350 : ℚ)]) :=
  of_decide_eq_true (by with_unfolding_all rfl)

/-! ## `QuadZDevice.move_to` (quadz.py 532-566)

One position readback pairs `get_probe_x_position` (four integers, via
`int()`) with `get_encoder_position`, whose `'Y'` entry is left as the
raw *string* of the split response (quadz.py 237-248 applies no `int()`).
`env k` is the k-th readback pair taken during the call.  In Python 2 a
`str` and an `int` are never equal — their comparison orders by type
name — so the loop condition's `position['Y'] != y` (string against the
integer argument) is identically true, which `pyStrNeInt` records. -/

/-- One joint readback: the four probe x positions and the raw y string. -/
structure Obs where
  px1 : ℤ
  px2 : ℤ
  px3 : ℤ
  px4 : ℤ
  encY : String
deriving DecidableEq, Repr

/-- Lookup of `probe_x[probe]`.  Keys outside 1-4 would be a Python `KeyError`;
no claim exercises them. -/
def Obs.px (o : Obs) (probe : ℕ) : ℤ :=
  match probe with
  | 2 => o.px2
  | 3 => o.px3
  | 4 => o.px4
  | _ => o.px1

/-- Python 2's `!=` between a `str` and an `int`: always `True`,
regardless of the contents of either side. -/
def pyStrNeInt (_s : String) (_y : ℤ) : Bool := true

/-- Outcome of a `move_to` call: normal return after consuming `n`
readbacks, `MoveInnacuracyDetected` raised at the settling re-sample
with index `n`, or fuel exhaustion (the loop genuinely does not
terminate while the instrument keeps answering off-target, changing
positions). -/
inductive MoveOutcome where
  | done (n : ℕ)
  | stalled (n : ℕ)
  | fuelOut
deriving DecidableEq, Repr

/-- The polling loop of `move_to` (552-566).  `prev` is the readback
pair held in `probe_x` / `position`, taken as observation `k - 1`;
`counter` is `sleep_counter`.  While `probe_x[probe] != x and
position['Y'] != y` (the second conjunct vacuously true): once
`sleep_counter > timeout`, sleep 2 s and re-sample; a re-sample
identical to the held pair raises `MoveInnacuracyDetected`; otherwise
the re-sample is discarded, and — as on every iteration — the loop
sleeps 0.05 s, adds 0.05 to the counter, and takes a fresh readback
for the next test. -/
def moveToLoop (env : ℕ → Obs) (probe : ℕ) (x y : ℤ) (timeout : ℚ) :
    ℕ → ℕ → Obs → ℚ → MoveOutcome
  | 0, _, _, _ => .fuelOut
  | fuel + 1, k, prev, counter =>
    if prev.px probe ≠ x ∧ pyStrNeInt prev.encY y = true then
      if timeout < counter then
        let settle := env k
        if settle = prev then .stalled k
        else moveToLoop env probe x y timeout fuel (k + 2) (env (k + 1)) (counter + 1/20)
      else moveToLoop env probe x y timeout fuel (k + 1) (env k) (counter + 1/20)
    else .done k

/-- Model of `QuadZDevice.move_to` (532-566): take the initial readback
(observation 0), issue the buffered `set_probe_position` write, and
poll.  The default `timeout` is 5 seconds. -/
def moveTo (env : ℕ → Obs) (probe : ℕ) (x y : ℤ) (timeout : ℚ) (fuel : ℕ) : MoveOutcome :=
  moveToLoop env probe x y timeout fuel 1 (env 0) 0

/-! ## Projections, concrete states and instruments used by the theorems -/

/-- The response stream the C7 counterexample uses: empty reads and the
byte `'a'` strictly alternating, so no two empty reads are ever
consecutive. -/
def sAlt : ℕ → Option ℕ := fun i => if i % 2 = 0 then none else some 97

/-- The response stream delivering 32 low bytes and then a high-bit
terminator, for a 33-character successfully decoded response. -/
def sLong : ℕ → Option ℕ := fun k => if k < 32 then some 65 else some 200

/-- The `SerialQueue` state left behind by a stateful run, successful
or not. -/
def stS (r : Except (GExn × SState) SState) : SState :=
  match r with
  | .ok st => st
  | .error (_, st) => st

/-- An instrument that lets the handshake succeed for device 7, reports
a ready pump buffer (`'0'`) on the first status poll, and then echoes a
wrong byte at the very first framed byte of the transmission. -/
def wenvC5 : WEnv :=
  { connReads := fun _ => some 135
    pollReads := fun _ _ => some 176
    echoReads := fun _ => some 0 }

/-- An instrument on which every connect attempt fails. -/
def wenvFail : WEnv :=
  { connReads := fun _ => some 0
    pollReads := fun _ _ => some 176
    echoReads := fun _ => some 10 }

/-- An instrument whose buffer-status query always answers `'X'`
(neither the controller's readiness symbol `'|'` nor a pump's leading
`'0'`). -/
def wenvNeverReady : WEnv :=
  { connReads := fun _ => some 0
    pollReads := fun _ _ => some 216
    echoReads := fun _ => some 0 }

/-- An instrument whose buffer-status query answers `'1'` (busy) on the
first two polls and `'0'` (ready) on the third. -/
def wenvPumpReady : WEnv :=
  { connReads := fun _ => some 0
    pollReads := fun k _ => if k < 2 then some 177 else some 176
    echoReads := fun _ => some 0 }

/-- The controller state left behind by a stateful pump-layer run,
successful or not. -/
def stQ (r : Except (GExn × QState) QState) : QState :=
  match r with
  | .ok st => st
  | .error (_, st) => st

/-- The four pending-operation (`next_operation`) fields. -/
def SyrMap.nextOps (m : SyrMap) : ℚ × ℚ × ℚ × ℚ :=
  (m.s1.next_operation, m.s2.next_operation, m.s3.next_operation, m.s4.next_operation)

/-- Whether a buffered payload is one of the per-probe volume commands. -/
def Payload.isVol : Payload → Bool
  | .aspirateVol _ _ _ => true
  | .dispenseVol _ _ _ => true
  | _ => false

/-- The queue entry `QuadZDevice.buffered` appends for a given payload
and device argument. -/
def quadzBufferedCmd (st : QState) (payload : Payload) (device_id : ℤ) :
    ℤ × Payload × WaitTag :=
  let dev := if device_id = -1 then st.device_id else device_id
  (dev, payload, if dev ∈ st.syringe_devices then WaitTag.pump else WaitTag.pyTrue)

/-- The state `qPump0` with a 300 µL syringe recorded for probe 1, so that
headroom (`syringe_size - current volume`) is meaningful. -/
def qPumpSz : QState :=
  { qPump0 with syr := qPump0.syr.set 1 fun t => { t with syringe_size := 300 } }

/-- An instrument that reports the same off-target readback forever. -/
def envConst : ℕ → Obs := fun _ => ⟨0, 0, 0, 0, "0"⟩

/-- An instrument whose probe-1 x readback changes at every sample. -/
def envMoving : ℕ → Obs := fun j => ⟨(j : ℤ), 0, 0, 0, "0"⟩

/-- An instrument whose probe-1 x readback sits at 100 while the encoder
reports the y string "500". -/
def envXAtTarget : ℕ → Obs := fun _ => ⟨100, 0, 0, 0, "500"⟩

/-! ## Bridge lemmas for the Python numeric primitives -/

theorem pyFloor_eq_floor (q : ℚ) : pyFloor q = ⌊q⌋ := Rat.floor_def.symm

theorem pyMod1_eq_fract (q : ℚ) : pyMod1 q = Int.fract q := by
  rw [pyMod1, pyFloor_eq_floor, Int.fract]

theorem pyInt_eq (q : ℚ) : pyInt q = if 0 ≤ q then ⌊q⌋ else ⌈q⌉ := by
  rw [pyInt, pyFloor_eq_floor, pyFloor_eq_floor, Int.floor_neg, neg_neg]

/-! ## Characterization of the immediate receive loop -/

/-- A successful run of the receive loop terminates at the first
high-bit byte: `n - 1` is its read index, every earlier read in the
window was empty or a low byte, and the response is the accumulator
followed by the low bytes read in order and the cleared terminator. -/
theorem sendImmAux_ok (reads : ℕ → Option ℕ) :
    ∀ fuel count nullCount resp r n,
      sendImmAux reads fuel count nullCount resp = .ok r n →
      count < n ∧
      (∃ b, reads (n - 1) = some b ∧ b >>> 7 = 1 ∧
        r = resp ++ bytesRead reads count (n - 1 - count) ++ [b - 128]) ∧
      (∀ i, count ≤ i → i < n - 1 → ∀ b, reads i = some b → b >>> 7 ≠ 1) := by
  intro fuel
  induction fuel with
  | zero => intro count nc resp r n h; simp [sendImmAux] at h
  | succ f ih =>
    intro count nc resp r n h
    rw [sendImmAux] at h
    by_cases h32 : 32 < count
    · simp [h32] at h
    · by_cases h5 : 5 < nc
      · simp [h32, h5] at h
      · simp only [if_neg h32, if_neg h5] at h
        cases hr : reads count with
        | some b =>
          rw [hr] at h
          by_cases hb : b >>> 7 = 1
          · simp only [if_pos hb, ImmResult.ok.injEq] at h
            obtain ⟨hresp, hn⟩ := h
            refine ⟨by omega, ⟨b, ?_, hb, ?_⟩, ?_⟩
            · rw [← hn]; simpa using hr
            · have h0 : n - 1 - count = 0 := by omega
              rw [h0, bytesRead, ← hresp]; simp
            · intro i hi1 hi2 b' _ _; omega
          · simp only [if_neg hb] at h
            obtain ⟨hlt, ⟨b', hb', hb'1, hr'⟩, hnone⟩ := ih (count + 1) nc (resp ++ [b]) r n h
            refine ⟨by omega, ⟨b', hb', hb'1, ?_⟩, ?_⟩
            · have hlen : n - 1 - count = (n - 1 - (count + 1)) + 1 := by omega
              rw [hlen, bytesRead, hr, hr']
              simp
            · intro i hi1 hi2 b'' hrb hb''
              rcases Nat.eq_or_lt_of_le hi1 with hEq | hGt
              · subst hEq; rw [hr] at hrb
                have : b = b'' := by injection hrb
                exact hb (this ▸ hb'')
              · exact hnone i hGt hi2 b'' hrb hb''
        | none =>
          rw [hr] at h
          obtain ⟨hlt, ⟨b', hb', hb'1, hr'⟩, hnone⟩ := ih (count + 1) (nc + 1) resp r n h
          refine ⟨by omega, ⟨b', hb', hb'1, ?_⟩, ?_⟩
          · have hlen : n - 1 - count = (n - 1 - (count + 1)) + 1 := by omega
            rw [hlen, bytesRead, hr, hr']
          · intro i hi1 hi2 b'' hrb hb''
            rcases Nat.eq_or_lt_of_le hi1 with hEq | hGt
            · subst hEq; rw [hr] at hrb; exact Option.noConfusion hrb
            · exact hnone i hGt hi2 b'' hrb hb''

/-- A `ResponseSizeError` run of the receive loop stops at the first
iteration whose top-of-loop guard fires (read budget of 32 exceeded or
empty-read budget of 5 exceeded, counting every empty read of the
exchange), after exactly `c` reads, none of which was a high-bit
terminator. -/
theorem sendImmAux_sizeErr (reads : ℕ → Option ℕ) :
    ∀ fuel count nullCount resp c,
      sendImmAux reads fuel count nullCount resp = .sizeErr c →
      count ≤ c ∧
      (32 < c ∨ 5 < nullCount + countEmpties reads count (c - count)) ∧
      (∀ j, count ≤ j → j < c →
        ¬(32 < j ∨ 5 < nullCount + countEmpties reads count (j - count))) ∧
      (∀ i, count ≤ i → i < c → ∀ b, reads i = some b → b >>> 7 ≠ 1) := by
  intro fuel
  induction fuel with
  | zero => intro count nc resp c h; simp [sendImmAux] at h
  | succ f ih =>
    intro count nc resp c h
    rw [sendImmAux] at h
    by_cases h32 : 32 < count
    · simp only [if_pos h32, ImmResult.sizeErr.injEq] at h
      subst h
      exact ⟨le_refl _, Or.inl h32, fun j hj1 hj2 _ => by omega, fun i hi1 hi2 _ _ _ => by omega⟩
    · by_cases h5 : 5 < nc
      · simp only [if_neg h32, if_pos h5, ImmResult.sizeErr.injEq] at h
        subst h
        refine ⟨le_refl _, Or.inr ?_, fun j hj1 hj2 _ => by omega, fun i hi1 hi2 _ _ _ => by omega⟩
        simp only [Nat.sub_self, countEmpties]; omega
      · simp only [if_neg h32, if_neg h5] at h
        cases hr : reads count with
        | some b =>
          rw [hr] at h
          by_cases hb : b >>> 7 = 1
          · simp [hb] at h
          · simp only [if_neg hb] at h
            obtain ⟨hle, hcond, hmin, hnone⟩ := ih (count + 1) nc (resp ++ [b]) c h
            have hemp : ∀ len, countEmpties reads count (len + 1) =
                countEmpties reads (count + 1) len := by
              intro len; rw [countEmpties, hr]; simp
            refine ⟨by omega, ?_, ?_, ?_⟩
            · rcases hcond with h' | h'
              · exact Or.inl h'
              · refine Or.inr ?_
                have hlen : c - count = (c - (count + 1)) + 1 := by omega
                rw [hlen, hemp]; exact h'
            · intro j hj1 hj2
              rcases Nat.eq_or_lt_of_le hj1 with hEq | hGt
              · subst hEq
                simp only [Nat.sub_self, countEmpties]; omega
              · have := hmin j hGt hj2
                have hlen : j - count = (j - (count + 1)) + 1 := by omega
                rw [hlen, hemp]; exact this
            · intro i hi1 hi2 b' hrb hb'
              rcases Nat.eq_or_lt_of_le hi1 with hEq | hGt
              · subst hEq; rw [hr] at hrb
                have : b = b' := by injection hrb
                exact hb (this ▸ hb')
              · exact hnone i hGt hi2 b' hrb hb'
        | none =>
          rw [hr] at h
          obtain ⟨hle, hcond, hmin, hnone⟩ := ih (count + 1) (nc + 1) resp c h
          have hemp : ∀ len, countEmpties reads count (len + 1) =
              1 + countEmpties reads (count + 1) len := by
            intro len; rw [countEmpties, hr]; simp
          refine ⟨by omega, ?_, ?_, ?_⟩
          · rcases hcond with h' | h'
            · exact Or.inl h'
            · refine Or.inr ?_
              have hlen : c - count = (c - (count + 1)) + 1 := by omega
              rw [hlen, hemp]; omega
          · intro j hj1 hj2
            rcases Nat.eq_or_lt_of_le hj1 with hEq | hGt
            · subst hEq
              simp only [Nat.sub_self, countEmpties]; omega
            · have := hmin j hGt hj2
              have hlen : j - count = (j - (count + 1)) + 1 := by omega
              rw [hlen, hemp]; omega
          · intro i hi1 hi2 b' hrb hb'
            rcases Nat.eq_or_lt_of_le hi1 with hEq | hGt
            · subst hEq; rw [hr] at hrb; exact Option.noConfusion hrb
            · exact hnone i hGt hi2 b' hrb hb'

/-- The guards bound the receive loop by 34 iterations, so any fuel
beyond that cannot run out. -/
theorem sendImmAux_ne_fuelOut (reads : ℕ → Option ℕ) :
    ∀ fuel count nullCount resp, 33 - count < fuel →
      sendImmAux reads fuel count nullCount resp ≠ .fuelOut := by
  intro fuel
  induction fuel with
  | zero => intro count nc resp h; omega
  | succ f ih =>
    intro count nc resp h
    rw [sendImmAux]
    by_cases h32 : 32 < count
    · simp [h32]
    · by_cases h5 : 5 < nc
      · simp [h32, h5]
      · simp only [if_neg h32, if_neg h5]
        cases hr : reads count with
        | some b =>
          by_cases hb : b >>> 7 = 1
          · simp [hb]
          · simp only [if_neg hb]
            exact ih (count + 1) nc (resp ++ [b]) (by omega)
        | none => exact ih (count + 1) (nc + 1) resp (by omega)

/-- A run of the receive loop that stops (successfully or with the size
error) after its `m`-th read depends only on the first `m` reads: no
byte after the stopping point is read. -/
theorem sendImmAux_stop_congr (reads reads' : ℕ → Option ℕ) :
    ∀ fuel count nullCount resp,
      (∀ r n, sendImmAux reads fuel count nullCount resp = .ok r n →
        (∀ i, count ≤ i → i < n → reads' i = reads i) →
        sendImmAux reads' fuel count nullCount resp = .ok r n) ∧
      (∀ c, sendImmAux reads fuel count nullCount resp = .sizeErr c →
        (∀ i, count ≤ i → i < c → reads' i = reads i) →
        sendImmAux reads' fuel count nullCount resp = .sizeErr c) := by
  intro fuel
  induction fuel with
  | zero =>
    intro count nc resp
    constructor
    · intro r n h; simp [sendImmAux] at h
    · intro c h; simp [sendImmAux] at h
  | succ f ih =>
    intro count nc resp
    constructor
    · intro r n h hagree
      have hshape := sendImmAux_ok reads (f + 1) count nc resp r n h
      rw [sendImmAux] at h ⊢
      by_cases h32 : 32 < count
      · simp [h32] at h
      · by_cases h5 : 5 < nc
        · simp [h32, h5] at h
        · simp only [if_neg h32, if_neg h5] at h ⊢
          have hcnt : count < n := hshape.1
          have hag0 : reads' count = reads count := hagree count (le_refl _) hcnt
          rw [hag0]
          cases hr : reads count with
          | some b =>
            rw [hr] at h
            by_cases hb : b >>> 7 = 1
            · simpa [hb] using h
            · simp only [if_neg hb] at h ⊢
              exact (ih (count + 1) nc (resp ++ [b])).1 r n h
                (fun i hi1 hi2 => hagree i (by omega) hi2)
          | none =>
            rw [hr] at h
            exact (ih (count + 1) (nc + 1) resp).1 r n h
              (fun i hi1 hi2 => hagree i (by omega) hi2)
    · intro c h hagree
      have hshape := sendImmAux_sizeErr reads (f + 1) count nc resp c h
      rw [sendImmAux] at h ⊢
      by_cases h32 : 32 < count
      · simp only [if_pos h32] at h ⊢; exact h
      · by_cases h5 : 5 < nc
        · simp only [if_neg h32, if_pos h5] at h ⊢; exact h
        · simp only [if_neg h32, if_neg h5] at h ⊢
          have hcnt : count < c := by
            rcases Nat.eq_or_lt_of_le hshape.1 with hEq | hGt
            · exfalso
              rcases hshape.2.1 with h' | h'
              · omega
              · rw [← hEq] at h'
                simp only [Nat.sub_self, countEmpties] at h'; omega
            · exact hGt
          have hag0 : reads' count = reads count := hagree count (le_refl _) hcnt
          rw [hag0]
          cases hr : reads count with
          | some b =>
            rw [hr] at h
            by_cases hb : b >>> 7 = 1
            · simp only [if_pos hb] at h; exact absurd h (by simp)
            · simp only [if_neg hb] at h ⊢
              exact (ih (count + 1) nc (resp ++ [b])).2 c h
                (fun i hi1 hi2 => hagree i (by omega) hi2)
          | none =>
            rw [hr] at h
            exact (ih (count + 1) (nc + 1) resp).2 c h
              (fun i hi1 hi2 => hagree i (by omega) hi2)

/-- C10: immediate response decoding returns successfully exactly on the
first received byte whose high bit is set; the returned response is
every previously received non-empty byte in order followed by that final
byte with its high bit cleared; and no byte after the terminator is read
(the outcome depends only on the reads up to it).  Conversely, whenever
the first high-bit byte sits at read index `t` and neither guard has
fired by then, the exchange does return successfully at exactly that
byte. -/
theorem C10_immediate_decode_terminator (reads : ℕ → Option ℕ) :
    (∀ r n, sendImmediateInstruction reads = .ok r n →
      0 < n ∧
      (∃ b, reads (n - 1) = some b ∧ b >>> 7 = 1 ∧
        r = bytesRead reads 0 (n - 1) ++ [b - 128]) ∧
      (∀ i, i < n - 1 → ∀ b, reads i = some b → b >>> 7 ≠ 1) ∧
      (∀ reads', (∀ i, i < n → reads' i = reads i) →
        sendImmediateInstruction reads' = .ok r n)) ∧
    (∀ t b, reads t = some b → b >>> 7 = 1 →
      (∀ i, i < t → ∀ b', reads i = some b' → b' >>> 7 ≠ 1) →
      (∀ j, j ≤ t → ¬(32 < j ∨ 5 < countEmpties reads 0 j)) →
      sendImmediateInstruction reads = .ok (bytesRead reads 0 t ++ [b - 128]) (t + 1)) := by
  constructor
  · intro r n h
    obtain ⟨h1, ⟨b, hb1, hb2, hb3⟩, h3⟩ := sendImmAux_ok reads 40 0 0 [] r n h
    refine ⟨h1, ⟨b, hb1, hb2, by simpa using hb3⟩, fun i hi => h3 i (Nat.zero_le _) hi, ?_⟩
    intro reads' hagree
    exact (sendImmAux_stop_congr reads reads' 40 0 0 []).1 r n h (fun i _ hi => hagree i hi)
  · intro t b hrt hbt hfirst hguard
    cases hres : sendImmediateInstruction reads with
    | fuelOut => exact absurd hres (sendImmAux_ne_fuelOut reads 40 0 0 [] (by omega))
    | sizeErr c =>
      exfalso
      obtain ⟨_, hcond, _, hnoterm⟩ := sendImmAux_sizeErr reads 40 0 0 [] c hres
      simp only [Nat.sub_zero, Nat.zero_add] at hcond hnoterm
      have htc : t < c := by
        by_contra hct
        exact hguard c (by omega) hcond
      exact hnoterm t (Nat.zero_le _) htc b hrt hbt
    | ok r n =>
      obtain ⟨h1, ⟨b', hb1, hb2, hb3⟩, h3⟩ := sendImmAux_ok reads 40 0 0 [] r n hres
      simp only [Nat.sub_zero, List.nil_append] at hb3 h3
      have hnt : n - 1 = t := by
        rcases Nat.lt_trichotomy (n - 1) t with hlt | hEq | hgt
        · exact absurd hb2 (hfirst (n - 1) hlt b' hb1)
        · exact hEq
        · exact absurd hbt (h3 t (Nat.zero_le _) hgt b hrt)
      rw [hnt] at hb1 hb3
      have hbb : b' = b := by
        rw [hrt] at hb1
        exact (Option.some.inj hb1).symm
      rw [hb3, hbb]
      have hn : n = t + 1 := by omega
      rw [hn]

/-- C10 witness: on the stream `sLong` the decoder consumes 33 reads,
terminates on the high-bit byte 200 at index 32, and emits the 32 low
bytes followed by the cleared terminator 72. -/
theorem C10_witness :
    (0 < 33 ∧
      (∃ b, sLong (33 - 1) = some b ∧ b >>> 7 = 1 ∧
        List.replicate 32 65 ++ [72] = bytesRead sLong 0 (33 - 1) ++ [b - 128]) ∧
      (∀ i, i < 33 - 1 → ∀ b, sLong i = some b → b >>> 7 ≠ 1) ∧
      (∀ reads', (∀ i, i < 33 → reads' i = sLong i) →
        sendImmediateInstruction reads' = .ok (List.replicate 32 65 ++ [72]) 33)) ∧
    sendImmediateInstruction sLong = .ok (bytesRead sLong 0 32 ++ [200 - 128]) (32 + 1) :=
  ⟨(C10_immediate_decode_terminator sLong).1 (List.replicate 32 65 ++ [72]) 33 (by decide),
   (C10_immediate_decode_terminator sLong).2 32 200 (by decide) (by decide)
     (by decide) (by decide)⟩

/-- C7 counterexample: on the strictly alternating stream `sAlt` the
exchange aborts with `ResponseSizeError` after 11 reads, although no two
empty reads were ever consecutive (so a counter reset by every non-empty
read would never exceed 1) and only 5 bytes had been read; and on
`sLong` a response of 33 bytes is decoded successfully, although the
total number of bytes read exceeds 32. -/
theorem C7_counterexample :
    (sendImmediateInstruction sAlt = .sizeErr 11 ∧
      (∀ i, i < 10 → ¬(sAlt i = none ∧ sAlt (i + 1) = none)) ∧
      (bytesRead sAlt 0 11).length = 5) ∧
    (sendImmediateInstruction sLong = .ok (List.replicate 32 65 ++ [72]) 33 ∧
      (List.replicate 32 65 ++ [72]).length = 33) := by decide

/-- C7 amended: the receive loop raises `ResponseSizeError` at the first
iteration at which either the total number of reads performed (empty or
not) exceeds 32, or the total number of empty reads over the whole
exchange — a counter that is never reset by non-empty reads — exceeds 5;
no high-bit terminator was read earlier, and no read is performed after
the error (the outcome depends only on the reads before it). -/
theorem C7_amended_response_guards (reads : ℕ → Option ℕ) (c : ℕ)
    (h : sendImmediateInstruction reads = .sizeErr c) :
    (32 < c ∨ 5 < countEmpties reads 0 c) ∧
    (∀ j, j < c → ¬(32 < j ∨ 5 < countEmpties reads 0 j)) ∧
    (∀ i, i < c → ∀ b, reads i = some b → b >>> 7 ≠ 1) ∧
    (∀ reads', (∀ i, i < c → reads' i = reads i) →
      sendImmediateInstruction reads' = .sizeErr c) := by
  obtain ⟨_, hcond, hmin, hnoterm⟩ := sendImmAux_sizeErr reads 40 0 0 [] c h
  simp only [Nat.sub_zero, Nat.zero_add] at hcond hmin hnoterm
  refine ⟨hcond, fun j hj => hmin j (Nat.zero_le _) hj,
    fun i hi => hnoterm i (Nat.zero_le _) hi, ?_⟩
  intro reads' hagree
  exact (sendImmAux_stop_congr reads reads' 40 0 0 []).2 c h (fun i _ hi => hagree i hi)

/-- C7 witness: the amended guard characterization applied to the
alternating stream, which errors after 11 reads with 6 total empty
reads. -/
theorem C7_witness :
    (32 < 11 ∨ 5 < countEmpties sAlt 0 11) ∧
    (∀ j, j < 11 → ¬(32 < j ∨ 5 < countEmpties sAlt 0 j)) ∧
    (∀ i, i < 11 → ∀ b, sAlt i = some b → b >>> 7 ≠ 1) ∧
    (∀ reads', (∀ i, i < 11 → reads' i = sAlt i) →
      sendImmediateInstruction reads' = .sizeErr 11) :=
  C7_amended_response_guards sAlt 11 (by decide)

/-! ## Characterization of the connection retry loop -/

theorem connect_registered (connReads : ℕ → Option ℕ) (i : ℕ) (st : SState) (devId : ℕ) :
    (stS (connect connReads i st devId)).registered = st.registered := by
  by_cases h1 : devId ∉ st.registered
  · simp [connect, h1, stS]
  · by_cases h2 : st.connected = some devId
    · simp [connect, h1, h2, stS]
    · by_cases h3 : connReads i = some (devId + 128)
      · simp [connect, h1, h2, h3, stS]
      · simp [connect, h1, h2, h3, stS]

theorem establishLoop_registered (connReads : ℕ → Option ℕ) (devId : ℕ) :
    ∀ n i st, (stS (establishLoop connReads devId n i st)).registered = st.registered := by
  intro n
  induction n with
  | zero => intro i st; rfl
  | succ m ih =>
    intro i st
    rw [establishLoop]
    have hc := connect_registered connReads i { st with connected := none } devId
    cases hcon : connect connReads i { st with connected := none } devId with
    | ok st2 => rw [hcon] at hc; exact hc
    | error e =>
      obtain ⟨ex, st2⟩ := e
      rw [hcon] at hc
      cases ex with
      | deviceNotConnected d => exact (ih (i + 1) st2).trans hc
      | responseSizeError => exact hc
      | bufferedResponseError => exact hc
      | deviceNotRegistered d => exact hc
      | deviceNotResponding d => exact hc
      | moveInnacuracyDetected => exact hc
      | volumeError => exact hc
      | indexError => exact hc
      | fuelOut => exact hc

/-- When the id is registered and every read in the window fails to echo
the device byte, the retry loop exhausts its budget and raises
`DeviceNotResponding`, leaving the port disconnected. -/
theorem establishLoop_fail (connReads : ℕ → Option ℕ) (devId : ℕ) :
    ∀ n i st, devId ∈ st.registered →
      (∀ j, i ≤ j → j < i + n → connReads j ≠ some (devId + 128)) →
      establishLoop connReads devId n i st =
        .error (.deviceNotResponding devId, if n = 0 then st else { st with connected := none }) := by
  intro n
  induction n with
  | zero => intro i st _ _; simp [establishLoop]
  | succ m ih =>
    intro i st hreg hfail
    rw [establishLoop]
    have hcon : connect connReads i { st with connected := none } devId =
        .error (.deviceNotConnected devId, { st with connected := none }) := by
      have h1 : ¬devId ∉ ({ st with connected := none } : SState).registered := by
        simpa using hreg
      have h3 : connReads i ≠ some (devId + 128) := hfail i (le_refl _) (by omega)
      simp [connect, h1, h3]
    rw [hcon]
    show establishLoop connReads devId m (i + 1) { st with connected := none } =
      .error (.deviceNotResponding devId,
        if m + 1 = 0 then st else { st with connected := none })
    have := ih (i + 1) { st with connected := none } (by simpa using hreg)
      (fun j hj1 hj2 => hfail j (by omega) (by omega))
    rw [this]
    cases m with
    | zero => rfl
    | succ m' => rfl

/-- When the id is registered, the retry loop succeeds exactly when some
read in its window echoes the device byte. -/
theorem establishLoop_ok_iff (connReads : ℕ → Option ℕ) (devId : ℕ) :
    ∀ n i st, devId ∈ st.registered →
      ((∃ st', establishLoop connReads devId n i st = .ok st') ↔
        ∃ j, i ≤ j ∧ j < i + n ∧ connReads j = some (devId + 128)) := by
  intro n
  induction n with
  | zero =>
    intro i st _
    constructor
    · rintro ⟨st', h⟩; simp [establishLoop] at h
    · rintro ⟨j, hj1, hj2, _⟩; omega
  | succ m ih =>
    intro i st hreg
    rw [establishLoop]
    have h1 : ¬devId ∉ ({ st with connected := none } : SState).registered := by
      simpa using hreg
    by_cases h3 : connReads i = some (devId + 128)
    · have hcon : connect connReads i { st with connected := none } devId =
          .ok { st with connected := some devId } := by
        simp [connect, h1, h3]
      rw [hcon]
      exact ⟨fun _ => ⟨i, le_refl _, by omega, h3⟩, fun _ => ⟨_, rfl⟩⟩
    · have hcon : connect connReads i { st with connected := none } devId =
          .error (.deviceNotConnected devId, { st with connected := none }) := by
        simp [connect, h1, h3]
      rw [hcon]
      rw [ih (i + 1) { st with connected := none } (by simpa using hreg)]
      constructor
      · rintro ⟨j, hj1, hj2, hj3⟩; exact ⟨j, by omega, by omega, hj3⟩
      · rintro ⟨j, hj1, hj2, hj3⟩
        refine ⟨j, ?_, by omega, hj3⟩
        rcases Nat.eq_or_lt_of_le hj1 with hEq | hGt
        · exact absurd (hEq ▸ hj3) h3
        · omega

/-- When the id is registered, the only exception the retry loop can
raise is `DeviceNotResponding`. -/
theorem establishLoop_err (connReads : ℕ → Option ℕ) (devId : ℕ) :
    ∀ n i st e st', devId ∈ st.registered →
      establishLoop connReads devId n i st = .error (e, st') →
      e = .deviceNotResponding devId := by
  intro n
  induction n with
  | zero =>
    intro i st e st' _ h
    rw [establishLoop] at h
    exact (Prod.mk.inj (Except.error.inj h)).1.symm
  | succ m ih =>
    intro i st e st' hreg h
    rw [establishLoop] at h
    have h1 : ¬devId ∉ ({ st with connected := none } : SState).registered := by
      simpa using hreg
    by_cases h3 : connReads i = some (devId + 128)
    · have hcon : connect connReads i { st with connected := none } devId =
          .ok { st with connected := some devId } := by
        simp [connect, h1, h3]
      rw [hcon] at h
      exact Except.noConfusion h
    · have hcon : connect connReads i { st with connected := none } devId =
          .error (.deviceNotConnected devId, { st with connected := none }) := by
        simp [connect, h1, h3]
      rw [hcon] at h
      exact ih (i + 1) _ e st' (by simpa using hreg) h

/-- C4 counterexample: an immediate instruction to registered address 5
whose handshake fails on all 10 retries does NOT surface an error to the
submitting caller: `add_immediate_instruction` returns the Python
`False` sentinel (the worker stores `False` as the response and parks
the `DeviceNotResponding` exception in `last_exception`). -/
theorem C4_counterexample :
    addImmediateInstruction (fun _ => some 0) (fun _ => some 200) ⟨[5], none, none⟩ 5 =
      .ok (.pyFalse, ⟨[5], none, some (.deviceNotResponding 5)⟩) := by decide

/-- C4 amended: when the handshake retry budget for a registered address
is exhausted, the worker catches `DeviceNotResponding`, records it in
`last_exception`, and the submitting caller synchronously receives the
non-error sentinel `False` rather than the exception. -/
theorem C4_amended_sentinel_false (connReads reads : ℕ → Option ℕ) (st : SState) (devId : ℕ)
    (hreg : devId ∈ st.registered) (hconn : st.connected ≠ some devId)
    (hfail : ∀ i, i < 10 → connReads i ≠ some (devId + 128)) :
    addImmediateInstruction connReads reads st devId =
      .ok (.pyFalse, { st with
        connected := none
        lastException := some (.deviceNotResponding devId) }) := by
  unfold addImmediateInstruction establishConnection
  rw [if_neg hconn,
    establishLoop_fail connReads devId 10 0 st hreg (fun j _ hj2 => hfail j (by omega))]
  rfl

/-- C4 witness: the amended statement instantiated at address 9 with a
bus that echoes the wrong byte on every attempt. -/
theorem C4_witness :
    addImmediateInstruction (fun _ => some 0) (fun _ => some 201) ⟨[9], some 3, none⟩ 9 =
      .ok (.pyFalse, { registered := [9]
                       connected := none
                       lastException := some (.deviceNotResponding 9) }) :=
  C4_amended_sentinel_false _ _ _ 9 (by decide) (by decide) (fun i _ => by decide)

/-- C6 counterexample: when every connect attempt fails, register_device
returns `false` without raising, but the address 7 IS in the registry
afterwards (it was appended before the handshake and never removed),
contradicting the claim that it is absent. -/
theorem C6_counterexample :
    registerDevice (fun _ => some 0) ⟨[], none, none⟩ 7 =
      .ok (false, ⟨[7], none, none⟩) ∧ (7 : ℕ) ∈ [7] := by decide

/-- C6 amended: `register_device` never raises and returns `true`
exactly when the handshake succeeds (already connected, or some attempt
within the budget of 10 echoes the device byte); but the address is in
the registry afterwards in BOTH cases, because it is appended before the
handshake is attempted and never removed on failure. -/
theorem C6_register_device (connReads : ℕ → Option ℕ) (st : SState) (devId : ℕ) :
    ∃ b st', registerDevice connReads st devId = .ok (b, st') ∧
      devId ∈ st'.registered ∧
      (b = true ↔ (st.connected = some devId ∨
        ∃ j, j < 10 ∧ connReads j = some (devId + 128))) := by
  have hreg : devId ∈ ({ st with registered := st.registered ++ [devId] } : SState).registered := by
    simp
  simp only [registerDevice, establishConnection]
  by_cases hc : st.connected = some devId
  · rw [if_pos hc]
    exact ⟨true, _, rfl, hreg, by simp [hc]⟩
  · rw [if_neg hc]
    by_cases hex : ∃ j, j < 10 ∧ connReads j = some (devId + 128)
    · obtain ⟨st2, hok⟩ := (establishLoop_ok_iff connReads devId 10 0 _ hreg).2
        (by obtain ⟨j, hj1, hj2⟩ := hex; exact ⟨j, Nat.zero_le _, by omega, hj2⟩)
      rw [hok]
      have hregp := establishLoop_registered connReads devId 10 0
        { st with registered := st.registered ++ [devId] }
      rw [hok] at hregp
      have h2 : st2.registered =
          ({ st with registered := st.registered ++ [devId] } : SState).registered := hregp
      exact ⟨true, st2, rfl, h2 ▸ hreg, by simp [hex]⟩
    · cases hres : establishLoop connReads devId 10 0
          { st with registered := st.registered ++ [devId] } with
      | ok st2 =>
        exact absurd ((establishLoop_ok_iff connReads devId 10 0 _ hreg).1 ⟨st2, hres⟩)
          (by rintro ⟨j, _, hj2, hj3⟩; exact hex ⟨j, by omega, hj3⟩)
      | error e =>
        obtain ⟨ex, st2⟩ := e
        have hex2 := establishLoop_err connReads devId 10 0 _ ex st2 hreg hres
        subst hex2
        have hregp := establishLoop_registered connReads devId 10 0
          { st with registered := st.registered ++ [devId] }
        rw [hres] at hregp
        refine ⟨false, st2, rfl, hregp ▸ hreg, ?_⟩
        simp [hc, hex]

/-! ## Claims about the worker's buffered loop -/

/-- C5 counterexample: a buffered instruction whose handshake and
buffer gate succeed but whose transmission hits an echo mismatch makes
the worker loop CRASH — `send_buffered_instruction` sits in the `else`
of the `try`, and only `DeviceNotResponding` is caught, so the
`BufferedResponseError` propagates out of `run()` and the worker
thread terminates instead of proceeding to the next instruction. -/
theorem C5_counterexample :
    workerBufferedStep wenvC5 ⟨[7], none, none⟩ 7 [83] .pump 5 =
      .crashes .bufferedResponseError ⟨[7], some 7, none⟩ := by decide

/-- C5 amended: a handshake failure (`DeviceNotResponding`) while
executing a buffered instruction is caught — the worker records it and
continues with the next queued instruction — but an echo-mismatch
framing failure (`BufferedResponseError`) is NOT caught: it propagates
out of the worker loop and terminates it. -/
theorem C5_amended_worker_fate (wenv : WEnv) (st : SState) (devId : ℕ)
    (payload : List ℕ) (tag : WaitTag) (fuel : ℕ) :
    (∀ d st1,
      establishConnection wenv.connReads st devId = .error (.deviceNotResponding d, st1) →
      workerBufferedStep wenv st devId payload tag fuel =
        .continues { st1 with lastException := some (.deviceNotResponding d) }) ∧
    (∀ st1 n, establishConnection wenv.connReads st devId = .ok st1 →
      bufferGate wenv tag fuel = .ok n →
      sendBufferedInstruction wenv.echoReads payload = .error .bufferedResponseError →
      workerBufferedStep wenv st devId payload tag fuel =
        .crashes .bufferedResponseError st1) := by
  constructor
  · intro d st1 h
    unfold workerBufferedStep
    rw [h]
  · intro st1 n h1 h2 h3
    unfold workerBufferedStep
    rw [h1, h2, h3]

/-- C5 witness: the amended dichotomy at two concrete instruments — a
dead bus leaves the worker running with the failure recorded, and an
echo mismatch kills it. -/
theorem C5_witness :
    workerBufferedStep wenvFail ⟨[7], none, none⟩ 7 [83] .pump 5 =
      .continues ⟨[7], none, some (.deviceNotResponding 7)⟩ ∧
    workerBufferedStep wenvC5 ⟨[7], none, some .fuelOut⟩ 7 [83] .pump 5 =
      .crashes .bufferedResponseError ⟨[7], some 7, some .fuelOut⟩ :=
  ⟨(C5_amended_worker_fate wenvFail ⟨[7], none, none⟩ 7 [83] .pump 5).1
      7 ⟨[7], none, none⟩ (by decide),
   (C5_amended_worker_fate wenvC5 ⟨[7], none, some .fuelOut⟩ 7 [83] .pump 5).2
      ⟨[7], some 7, some .fuelOut⟩ 1 (by decide) (by decide) (by decide)⟩

/-! ## Claim C9: buffer-ready gating of buffered sends -/

/-- C9, evaluated at the failing input: a buffered instruction sent to
the liquid-handler controller through `QuadZDevice.buffered` (here
`beep`'s payload `'SB2400,1'` with the default `device_id = -1`) is
enqueued with `wait = True` — not `'handler'` — so the worker's
dispatch matches neither polling branch and performs NO buffer-status
polling at all (0 polls even on an instrument that never reports
ready), while the same worker polls a `'pump'`-tagged entry until the
response leads with `'0'` and would keep polling a `'handler'`-tagged
entry until `'|'`. -/
theorem C9_controller_gate_skipped :
    (quadzBuffered qPump0 (.raw [83, 66, 50, 52, 48, 48, 44, 49]) (-1)).cmds =
      [(22, .raw [83, 66, 50, 52, 48, 48, 44, 49], .pyTrue)] ∧
    (quadzBuffered qPump0 (.raw [66, 66]) 0).cmds = [(0, .raw [66, 66], .pump)] ∧
    bufferGate wenvNeverReady .pyTrue 5 = .ok 0 ∧
    bufferGate wenvNeverReady .handler 5 = .error .fuelOut ∧
    bufferGate wenvPumpReady .pump 5 = .ok 3 := by decide

/-! ## Preservation lemmas for the pump layer -/

theorem SyrMap.set_statusVol_nextOps (m : SyrMap) (p : ℕ) (a : Char) (b : ℚ) :
    (m.set p fun t => { t with status := a, current_volume := b }).nextOps = m.nextOps := by
  rcases p with _ | _ | _ | _ | _ | p <;> rfl

/-- A status query only advances the query counter and refreshes cached
status letters and volumes: it enqueues nothing and touches no
`next_operation` field. -/
theorem getSyringePumpStatus_preserves (env : ℕ → ℕ → Char × ℚ) (st : QState) (probe : ℕ) :
    (getSyringePumpStatus env st probe).2.cmds = st.cmds ∧
    (getSyringePumpStatus env st probe).2.syr.nextOps = st.syr.nextOps := by
  unfold getSyringePumpStatus
  refine ⟨rfl, ?_⟩
  dsimp only
  rw [SyrMap.set_statusVol_nextOps, SyrMap.set_statusVol_nextOps]

/-- The `'H'`-polling loop enqueues nothing. -/
theorem waitForH_cmds (env : ℕ → ℕ → Char × ℚ) (probe : ℕ) :
    ∀ fuel st, (stQ (waitForH env probe fuel st)).cmds = st.cmds := by
  intro fuel
  induction fuel with
  | zero => intro st; rfl
  | succ f ih =>
    intro st
    rw [waitForH]
    have hp := (getSyringePumpStatus_preserves env st probe).1
    rcases hg : getSyringePumpStatus env st probe with ⟨⟨c, vv⟩, st1⟩
    rw [hg] at hp
    show (stQ (if c ≠ 'H' then waitForH env probe f st1 else .ok st1)).cmds = st.cmds
    by_cases hc : c ≠ 'H'
    · rw [if_pos hc]
      exact (ih st1).trans hp
    · rw [if_neg hc]
      exact hp

theorem quadzBuffered_cmds (st : QState) (payload : Payload) (device_id : ℤ) :
    (quadzBuffered st payload device_id).cmds = st.cmds ++ [quadzBufferedCmd st payload device_id] :=
  rfl

/-- Any run of `set_aspirate_volume` extends the command queue by at
most its own `'A'` command; in particular it never enqueues the
synchronized start. -/
theorem setAspirateVolume_cmds (env : ℕ → ℕ → Char × ℚ) (st : QState) (probe : ℕ)
    (volume : ℚ) (fuel : ℕ) :
    ∃ extra, (stQ (setAspirateVolume env st probe volume fuel)).cmds = st.cmds ++ extra ∧
      ∀ c ∈ extra, Payload.isVol c.2.1 = true := by
  unfold setAspirateVolume
  dsimp only
  by_cases h : pyMod1 volume = pyMod1 (getSyringePumpStatus env st probe).1.2
  · rw [if_pos h]
    exact ⟨[], by simp [stQ, (getSyringePumpStatus_preserves env st probe).1], by simp⟩
  · rw [if_neg h]
    refine ⟨[quadzBufferedCmd (getSyringePumpStatus env st probe).2
      (.aspirateVol (if (st.syr.get probe).side = some .right then 'R' else 'L') volume
        (if 0 < pyMod1 volume then false else true)) (st.syr.get probe).device_id], ?_, ?_⟩
    · rw [waitForH_cmds]
      show (quadzBuffered (getSyringePumpStatus env st probe).2 _ _).cmds = _
      rw [quadzBuffered_cmds, (getSyringePumpStatus_preserves env st probe).1]
    · intro c hc
      simp only [List.mem_singleton] at hc
      subst hc
      rfl

/-- Any run of `set_dispense_volume` extends the command queue by at
most its own `'D'` command. -/
theorem setDispenseVolume_cmds (env : ℕ → ℕ → Char × ℚ) (st : QState) (probe : ℕ)
    (volume : ℚ) (fuel : ℕ) :
    ∃ extra, (stQ (setDispenseVolume env st probe volume fuel)).cmds = st.cmds ++ extra ∧
      ∀ c ∈ extra, Payload.isVol c.2.1 = true := by
  unfold setDispenseVolume
  dsimp only
  by_cases h : pyMod1 volume = pyMod1 (getSyringePumpStatus env st probe).1.2
  · rw [if_pos h]
    exact ⟨[], by simp [stQ, (getSyringePumpStatus_preserves env st probe).1], by simp⟩
  · rw [if_neg h]
    refine ⟨[quadzBufferedCmd (getSyringePumpStatus env st probe).2
      (.dispenseVol (if (st.syr.get probe).side = some .right then 'R' else 'L') volume
        (if 0 < pyMod1 volume then false else true)) (st.syr.get probe).device_id], ?_, ?_⟩
    · rw [waitForH_cmds]
      show (quadzBuffered (getSyringePumpStatus env st probe).2 _ _).cmds = _
      rw [quadzBuffered_cmds, (getSyringePumpStatus_preserves env st probe).1]
    · intro c hc
      simp only [List.mem_singleton] at hc
      subst hc
      rfl

/-! ## Claims C3, C1, C2: the volume setters and `pump` -/

/-- C3: for every probe and every requested volume whose fractional part
(`volume % 1`) equals the fractional part of the volume the pump
currently reports, both `set_aspirate_volume` and `set_dispense_volume`
return right after their status query — no buffered instruction is
enqueued and no probe's `next_operation` field changes. -/
theorem C3_fractional_part_early_return (env : ℕ → ℕ → Char × ℚ) (st : QState)
    (probe : ℕ) (volume : ℚ) (fuel : ℕ)
    (h : pyMod1 volume = pyMod1 (env st.qIdx probe).2) :
    setAspirateVolume env st probe volume fuel = .ok (getSyringePumpStatus env st probe).2 ∧
    setDispenseVolume env st probe volume fuel = .ok (getSyringePumpStatus env st probe).2 ∧
    (getSyringePumpStatus env st probe).2.cmds = st.cmds ∧
    (getSyringePumpStatus env st probe).2.syr.nextOps = st.syr.nextOps := by
  have hp := getSyringePumpStatus_preserves env st probe
  have h' : pyMod1 volume = pyMod1 (getSyringePumpStatus env st probe).1.2 := h
  constructor
  · unfold setAspirateVolume
    dsimp only
    rw [if_pos h']
  · refine ⟨?_, hp.1, hp.2⟩
    unfold setDispenseVolume
    dsimp only
    rw [if_pos h']

/-- C3 witness: requesting 300 µL (fractional part 0) while the pump
reports 200.0 µL makes both setters return with nothing enqueued and
`next_operation` untouched. -/
theorem C3_witness :
    setAspirateVolume (envH 200) qPump0 1 300 0 =
      .ok (getSyringePumpStatus (envH 200) qPump0 1).2 ∧
    setDispenseVolume (envH 200) qPump0 1 300 0 =
      .ok (getSyringePumpStatus (envH 200) qPump0 1).2 ∧
    (getSyringePumpStatus (envH 200) qPump0 1).2.cmds = qPump0.cmds ∧
    (getSyringePumpStatus (envH 200) qPump0 1).2.syr.nextOps = qPump0.syr.nextOps :=
  C3_fractional_part_early_return (envH 200) qPump0 1 300 0 (by with_unfolding_all rfl)

/-- C1 counterexample: with the reported volume of probe 1 at 200 µL,
`pump([-150])` does not complete — the aspirate branch's check
`vol > -volumes[0]` (200 > 150) raises `VolumeError` immediately, with
no buffered instruction enqueued. -/
theorem C1_counterexample :
    errOf (pump (envH 200) qPump0 [-150] 20) = some .volumeError ∧
    errCmds (pump (envH 200) qPump0 [-150] 20) = some [] :=
  of_decide_eq_true (by with_unfolding_all rfl)

/-- C1 amended: from a reported volume of 200 µL on probe 1,
`pump([-150])` raises `VolumeError` before any buffered instruction is
enqueued (the aspirate branch rejects any request whose magnitude is
below the reported volume); `pump([-250])`, by contrast, passes the
volume check without raising: its per-probe `'A'` command is skipped by
the fractional-part early return, the expected verification volume is
450 µL, the synchronized start `'BB'` is the only buffered instruction
issued, and the call then polls the (unchanging) pump forever, which the
model reports as fuel exhaustion. -/
theorem C1_amended_sign_convention :
    (errOf (pump (envH 200) qPump0 [-150] 20) = some .volumeError ∧
     errCmds (pump (envH 200) qPump0 [-150] 20) = some []) ∧
    (pumpCheckLoop (envH 200) 20 [-250] 0 qPump0 [] =
      .ok ((getSyringePumpStatus (envH 200)
        (getSyringePumpStatus (envH 200) qPump0 1).2 1).2, [(450 : ℚ)]) ∧
     (getSyringePumpStatus (envH 200)
        (getSyringePumpStatus (envH 200) qPump0 1).2 1).2.cmds = []) ∧
    (errOf (pump (envH 200) qPump0 [-250] 20) = some .fuelOut ∧
     errCmds (pump (envH 200) qPump0 [-250] 20) = some [(0, .beginBoth, .pump)]) :=
  of_decide_eq_true (by with_unfolding_all rfl)

/-- Any erroring run of the check-and-set loop has extended the command
queue only by per-probe volume commands: in particular the synchronized
start `'BB'` has not been issued when `VolumeError` is raised. -/
theorem pumpCheckLoop_error_shape (env : ℕ → ℕ → Char × ℚ) (fuel : ℕ) :
    ∀ volumes i st acc e st',
      pumpCheckLoop env fuel volumes i st acc = .error (e, st') →
      ∃ extra, st'.cmds = st.cmds ++ extra ∧ ∀ c ∈ extra, Payload.isVol c.2.1 = true := by
  intro volumes
  induction volumes with
  | nil => intro i st acc e st' h; simp [pumpCheckLoop] at h
  | cons v rest ih =>
    intro i st acc e st' h
    rw [pumpCheckLoop] at h
    dsimp only at h
    have hpres := (getSyringePumpStatus_preserves env st (i + 1)).1
    by_cases hv : 0 < v
    · rw [if_pos hv] at h
      by_cases hvol : (getSyringePumpStatus env st (i + 1)).1.2 < v
      · rw [if_pos hvol] at h
        obtain ⟨-, hst⟩ := Prod.mk.inj (Except.error.inj h)
        refine ⟨[], ?_, by simp⟩
        rw [← hst, hpres, List.append_nil]
      · rw [if_neg hvol] at h
        obtain ⟨extra1, hex1, hvol1⟩ :=
          setDispenseVolume_cmds env (getSyringePumpStatus env st (i + 1)).2 (i + 1) v fuel
        cases hd : setDispenseVolume env (getSyringePumpStatus env st (i + 1)).2
            (i + 1) v fuel with
        | error e2 =>
          obtain ⟨ex2, s2⟩ := e2
          rw [hd] at h hex1
          obtain ⟨-, hst⟩ := Prod.mk.inj (Except.error.inj h)
          refine ⟨extra1, ?_, hvol1⟩
          have hex2 : s2.cmds = (getSyringePumpStatus env st (i + 1)).2.cmds ++ extra1 := hex1
          rw [← hst, hex2, hpres]
        | ok st2 =>
          rw [hd] at h hex1
          obtain ⟨extra2, hex3, hvol2⟩ := ih (i + 1) st2
            (acc ++ [(getSyringePumpStatus env st (i + 1)).1.2 - v]) e st' h
          refine ⟨extra1 ++ extra2, ?_, ?_⟩
          · have hex2 : st2.cmds = (getSyringePumpStatus env st (i + 1)).2.cmds ++ extra1 := hex1
            rw [hex3, hex2, hpres, List.append_assoc]
          · intro c hc
            rcases List.mem_append.1 hc with hc1 | hc2
            · exact hvol1 c hc1
            · exact hvol2 c hc2
    · rw [if_neg hv] at h
      by_cases hvol : -v < (getSyringePumpStatus env st (i + 1)).1.2
      · rw [if_pos hvol] at h
        obtain ⟨-, hst⟩ := Prod.mk.inj (Except.error.inj h)
        refine ⟨[], ?_, by simp⟩
        rw [← hst, hpres, List.append_nil]
      · rw [if_neg hvol] at h
        obtain ⟨extra1, hex1, hvol1⟩ :=
          setAspirateVolume_cmds env (getSyringePumpStatus env st (i + 1)).2 (i + 1) |v| fuel
        cases hd : setAspirateVolume env (getSyringePumpStatus env st (i + 1)).2
            (i + 1) |v| fuel with
        | error e2 =>
          obtain ⟨ex2, s2⟩ := e2
          rw [hd] at h hex1
          obtain ⟨-, hst⟩ := Prod.mk.inj (Except.error.inj h)
          refine ⟨extra1, ?_, hvol1⟩
          have hex2 : s2.cmds = (getSyringePumpStatus env st (i + 1)).2.cmds ++ extra1 := hex1
          rw [← hst, hex2, hpres]
        | ok st2 =>
          rw [hd] at h hex1
          obtain ⟨extra2, hex3, hvol2⟩ := ih (i + 1) st2
            (acc ++ [(getSyringePumpStatus env st (i + 1)).1.2 - v]) e st' h
          refine ⟨extra1 ++ extra2, ?_, ?_⟩
          · have hex2 : st2.cmds = (getSyringePumpStatus env st (i + 1)).2.cmds ++ extra1 := hex1
            rw [hex3, hex2, hpres, List.append_assoc]
          · intro c hc
            rcases List.mem_append.1 hc with hc1 | hc2
            · exact hvol1 c hc1
            · exact hvol2 c hc2

/-- A dispense entry whose requested volume exceeds the reported volume
fails its check immediately, before its own command is enqueued. -/
theorem pumpCheckLoop_dispense_fail (env : ℕ → ℕ → Char × ℚ) (fuel : ℕ) (v : ℚ)
    (rest : List ℚ) (i : ℕ) (st : QState) (acc : List ℚ)
    (hv : 0 < v) (hvol : (env st.qIdx (i + 1)).2 < v) :
    pumpCheckLoop env fuel (v :: rest) i st acc =
      .error (.volumeError, (getSyringePumpStatus env st (i + 1)).2) := by
  rw [pumpCheckLoop]
  dsimp only
  rw [if_pos hv, if_pos (show (getSyringePumpStatus env st (i + 1)).1.2 < v from hvol)]

/-- An aspirate entry whose magnitude is below the reported volume fails
the `vol > -volumes[i]` check immediately, before its own command is
enqueued (note: this is not a headroom test — the syringe size plays no
role). -/
theorem pumpCheckLoop_aspirate_fail (env : ℕ → ℕ → Char × ℚ) (fuel : ℕ) (v : ℚ)
    (rest : List ℚ) (i : ℕ) (st : QState) (acc : List ℚ)
    (hv : ¬0 < v) (hvol : -v < (env st.qIdx (i + 1)).2) :
    pumpCheckLoop env fuel (v :: rest) i st acc =
      .error (.volumeError, (getSyringePumpStatus env st (i + 1)).2) := by
  rw [pumpCheckLoop]
  dsimp only
  rw [if_neg hv, if_pos (show -v < (getSyringePumpStatus env st (i + 1)).1.2 from hvol)]

/-- C2 counterexample.  First half: with both probes reporting 200 µL,
`pump([100.5, 300])` raises `VolumeError` at probe 2's check — but
probe 1's dispense command has already been enqueued, refuting "no
buffered hardware command for any probe in the list has been issued".
Second half: with a 300 µL syringe holding 100 µL, an aspirate of
250 µL exceeds the 200 µL headroom, yet the check loop completes
without any `VolumeError` — the aspirate check is not a headroom
test. -/
theorem C2_counterexample :
    (errOf (pump (envH 200) qPump0 [(100.5 : ℚ), 300] 20) = some .volumeError ∧
     errCmds (pump (envH 200) qPump0 [(100.5 : ℚ), 300] 20) =
       some [(0, .dispenseVol 'L' (100.5 : ℚ) false, .pump)]) ∧
    ((qPumpSz.syr.get 1).syringe_size - (envH 100 qPumpSz.qIdx 1).2 < 250 ∧
     pumpCheckLoop (envH 100) 20 [-250] 0 qPumpSz [] =
       .ok ((getSyringePumpStatus (envH 100)
         (getSyringePumpStatus (envH 100) qPumpSz 1).2 1).2, [(350 : ℚ)])) :=
  of_decide_eq_true (by with_unfolding_all rfl)

/-- C2 amended: when a probe's check fails (dispense: reported volume
below the request; aspirate: reported volume above the request's
magnitude — not a headroom test), `pump` raises `VolumeError` during the
per-probe loop: immediately, before the failing probe's own volume
command, and before the synchronized start — any commands enqueued
before the raise are per-probe volume commands of earlier entries, which
are not revoked. -/
theorem C2_amended_per_probe_checks (env : ℕ → ℕ → Char × ℚ) (fuel : ℕ) :
    (∀ volumes st err, pumpCheckLoop env fuel volumes 0 st [] = .error err →
      pump env st volumes fuel = .error err) ∧
    (∀ volumes i st acc e st',
      pumpCheckLoop env fuel volumes i st acc = .error (e, st') →
      ∃ extra, st'.cmds = st.cmds ++ extra ∧ ∀ c ∈ extra, Payload.isVol c.2.1 = true) ∧
    (∀ v rest i st acc, 0 < v → (env st.qIdx (i + 1)).2 < v →
      pumpCheckLoop env fuel (v :: rest) i st acc =
        .error (.volumeError, (getSyringePumpStatus env st (i + 1)).2) ∧
      (getSyringePumpStatus env st (i + 1)).2.cmds = st.cmds) ∧
    (∀ v rest i st acc, ¬0 < v → -v < (env st.qIdx (i + 1)).2 →
      pumpCheckLoop env fuel (v :: rest) i st acc =
        .error (.volumeError, (getSyringePumpStatus env st (i + 1)).2) ∧
      (getSyringePumpStatus env st (i + 1)).2.cmds = st.cmds) := by
  refine ⟨?_, ?_, ?_, ?_⟩
  · intro volumes st err h
    unfold pump
    rw [h]
  · exact pumpCheckLoop_error_shape env fuel
  · intro v rest i st acc hv hvol
    exact ⟨pumpCheckLoop_dispense_fail env fuel v rest i st acc hv hvol,
      (getSyringePumpStatus_preserves env st (i + 1)).1⟩
  · intro v rest i st acc hv hvol
    exact ⟨pumpCheckLoop_aspirate_fail env fuel v rest i st acc hv hvol,
      (getSyringePumpStatus_preserves env st (i + 1)).1⟩

/-- C2 witness: the amended statement at concrete inputs — a dispense of
300 µL against a reported 200 µL fails its check at once with nothing
enqueued, `pump` surfaces exactly that error, and an erroring check loop
has issued only volume commands. -/
theorem C2_witness :
    (pumpCheckLoop (envH 200) 20 [300] 0 qPump0 [] =
      .error (.volumeError, (getSyringePumpStatus (envH 200) qPump0 1).2) ∧
     (getSyringePumpStatus (envH 200) qPump0 1).2.cmds = qPump0.cmds) ∧
    pump (envH 200) qPump0 [300] 20 =
      .error (.volumeError, (getSyringePumpStatus (envH 200) qPump0 1).2) ∧
    (∃ extra, (getSyringePumpStatus (envH 200) qPump0 1).2.cmds = qPump0.cmds ++ extra ∧
      ∀ c ∈ extra, Payload.isVol c.2.1 = true) := by
  have hthm := C2_amended_per_probe_checks (envH 200) 20
  have h3 := hthm.2.2.1 300 [] 0 qPump0 []
    (of_decide_eq_true (by with_unfolding_all rfl))
    (of_decide_eq_true (by with_unfolding_all rfl))
  exact ⟨h3, hthm.1 [300] qPump0 _ h3.1, hthm.2.1 [300] 0 qPump0 [] _ _ h3.1⟩

/-! ## Claim C8: `move_to` stall detection -/

/-- Characterization of whole runs of the polling loop, along the
invariant that the readback the loop holds is the observation taken just
before the current one: a `.done` exit means the last readback matched
the target x, and a `.stalled` raise means the settling re-sample was
identical to the readback held before it and still off-target. -/
theorem moveToLoop_run (env : ℕ → Obs) (probe : ℕ) (x y : ℤ) (timeout : ℚ) :
    ∀ fuel k c,
      (∀ m, moveToLoop env probe x y timeout fuel (k + 1) (env k) c = .done m →
        k + 1 ≤ m ∧ (env (m - 1)).px probe = x) ∧
      (∀ m, moveToLoop env probe x y timeout fuel (k + 1) (env k) c = .stalled m →
        k + 1 ≤ m ∧ env m = env (m - 1) ∧ (env m).px probe ≠ x) := by
  intro fuel
  induction fuel with
  | zero =>
    intro k c
    refine ⟨fun m h => ?_, fun m h => ?_⟩ <;> simp [moveToLoop] at h
  | succ f ih =>
    intro k c
    constructor
    · intro m h
      rw [moveToLoop] at h
      by_cases hoff : (env k).px probe ≠ x ∧ pyStrNeInt (env k).encY y = true
      · rw [if_pos hoff] at h
        by_cases ht : timeout < c
        · rw [if_pos ht] at h
          dsimp only at h
          by_cases hs : env (k + 1) = env k
          · rw [if_pos hs] at h
            exact absurd h (by simp)
          · rw [if_neg hs] at h
            have hrec := ((ih (k + 2) (c + 1/20)).1 m) h
            exact ⟨by omega, hrec.2⟩
        · rw [if_neg ht] at h
          have hrec := ((ih (k + 1) (c + 1/20)).1 m) h
          exact ⟨by omega, hrec.2⟩
      · rw [if_neg hoff] at h
        have hm : m = k + 1 := (MoveOutcome.done.inj h).symm
        subst hm
        simp only [pyStrNeInt, and_true, ne_eq, not_not] at hoff
        exact ⟨le_refl _, by simpa using hoff⟩
    · intro m h
      rw [moveToLoop] at h
      by_cases hoff : (env k).px probe ≠ x ∧ pyStrNeInt (env k).encY y = true
      · rw [if_pos hoff] at h
        by_cases ht : timeout < c
        · rw [if_pos ht] at h
          dsimp only at h
          by_cases hs : env (k + 1) = env k
          · rw [if_pos hs] at h
            have hm : m = k + 1 := (MoveOutcome.stalled.inj h).symm
            subst hm
            refine ⟨le_refl _, hs, ?_⟩
            rw [hs]
            exact hoff.1
          · rw [if_neg hs] at h
            have hrec := ((ih (k + 2) (c + 1/20)).2 m) h
            exact ⟨by omega, hrec.2⟩
        · rw [if_neg ht] at h
          have hrec := ((ih (k + 1) (c + 1/20)).2 m) h
          exact ⟨by omega, hrec.2⟩
      · rw [if_neg hoff] at h
        exact absurd h (by simp)

/-- C8 counterexample: a `move_to(100, 2000)` call on an arm whose x
readback is already 100 but whose encoder y reads "500" — nowhere near
the target 2000 — returns immediately, with the polling loop never
entered (`.done 1`: only the initial readback is consumed): the
read-back position does not match the target, yet polling does not
continue, because the loop condition's `position['Y'] != y` compares a
Python 2 string with an integer and is vacuously true, leaving the x
comparison as the only effective exit test. -/
theorem C8_counterexample :
    moveTo envXAtTarget 1 100 2000 5 3 = .done 1 ∧
    (envXAtTarget 0).px 1 = 100 ∧ (envXAtTarget 0).encY = "500" ∧
    (envXAtTarget 0).encY ≠ "2000" := by decide

/-- C8 amended: `move_to` keeps polling while the read-back probe-x
position differs from the target x — and only that: the y comparison is
vacuous (Python 2 never equates the encoder's y string with the integer
argument), so the call returns as soon as the x readback matches; once the elapsed wait exceeds the timeout, each
iteration takes one settling re-sample: if it is identical to the
pre-settling readback — necessarily still off-target —
`MoveInnacuracyDetected` is raised, and if it differs, polling simply
resumes; over a whole call, a raise happens only at a pair of identical
consecutive off-target readbacks, so an instrument whose readback
changes at every sample is never reported stalled, no matter how long
the call runs. -/
theorem C8_move_to_stall_detection (env : ℕ → Obs) (probe : ℕ) (x y : ℤ) (timeout : ℚ) :
    (∀ fuel k prev c, prev.px probe = x →
      moveToLoop env probe x y timeout (fuel + 1) k prev c = .done k) ∧
    (∀ fuel k prev c, prev.px probe ≠ x → timeout < c → env k = prev →
      moveToLoop env probe x y timeout (fuel + 1) k prev c = .stalled k ∧
        (env k).px probe ≠ x) ∧
    (∀ fuel k prev c, prev.px probe ≠ x → timeout < c → env k ≠ prev →
      moveToLoop env probe x y timeout (fuel + 1) k prev c =
        moveToLoop env probe x y timeout fuel (k + 2) (env (k + 1)) (c + 1/20)) ∧
    (∀ fuel m, moveTo env probe x y timeout fuel = .done m →
      (env (m - 1)).px probe = x) ∧
    (∀ fuel m, moveTo env probe x y timeout fuel = .stalled m →
      1 ≤ m ∧ env m = env (m - 1) ∧ (env m).px probe ≠ x) ∧
    ((∀ j, env (j + 1) ≠ env j) →
      ∀ fuel m, moveTo env probe x y timeout fuel ≠ .stalled m) := by
  have hrun := moveToLoop_run env probe x y timeout
  refine ⟨?_, ?_, ?_, ?_, ?_, ?_⟩
  · intro fuel k prev c hpx
    rw [moveToLoop, if_neg]
    intro hoff
    exact hoff.1 hpx
  · intro fuel k prev c hpx ht hs
    rw [moveToLoop, if_pos ⟨hpx, rfl⟩, if_pos ht]
    dsimp only
    rw [if_pos hs]
    exact ⟨rfl, by rw [hs]; exact hpx⟩
  · intro fuel k prev c hpx ht hs
    rw [moveToLoop, if_pos ⟨hpx, rfl⟩, if_pos ht]
    dsimp only
    rw [if_neg hs]
  · intro fuel m h
    exact ((hrun fuel 0 0).1 m h).2
  · intro fuel m h
    exact ⟨((hrun fuel 0 0).2 m h).1, ((hrun fuel 0 0).2 m h).2⟩
  · intro hchange fuel m h
    obtain ⟨hm, hiden, -⟩ := (hrun fuel 0 0).2 m h
    have : m - 1 + 1 = m := by omega
    exact hchange (m - 1) (by rw [this]; exact hiden)

/-- C8 witness: on a frozen instrument a `move_to(5, 7, timeout = 0)`
raises the stall after the first settling re-sample, an on-target
readback exits at once, and a readback that changes at every sample is
never reported stalled. -/
theorem C8_witness :
    moveToLoop envConst 1 5 7 0 3 2 ⟨5, 0, 0, 0, "0"⟩ 1 = .done 2 ∧
    (moveToLoop envConst 1 5 7 0 3 2 (envConst 1) 1 = .stalled 2 ∧
      (envConst 2).px 1 ≠ 5) ∧
    (1 ≤ 2 ∧ envConst 2 = envConst 1 ∧ (envConst 2).px 1 ≠ 5) ∧
    (∀ fuel m, moveTo envMoving 1 (-3) 7 0 fuel ≠ .stalled m) :=
  ⟨(C8_move_to_stall_detection envConst 1 5 7 0).1 2 2 ⟨5, 0, 0, 0, "0"⟩ 1 (by decide),
   (C8_move_to_stall_detection envConst 1 5 7 0).2.1 2 2 (envConst 1) 1
     (by decide) (of_decide_eq_true (by with_unfolding_all rfl)) (by decide),
   (C8_move_to_stall_detection envConst 1 5 7 0).2.2.2.2.1 2 2
     (of_decide_eq_true (by with_unfolding_all rfl)),
   (C8_move_to_stall_detection envMoving 1 (-3) 7 0).2.2.2.2.2
     (fun j => by simp [envMoving, Obs.mk.injEq])⟩

end PyQuadZ
